import Mathlib

/-!
Verification of the panel-lifecycle, message-routing and markup-generation
logic of the simple-vscode-vite-template repository, as a shallow embedding.
The host platform (native view creation, URI resolution, notification
display) is an external collaborator consumed as an opaque service; its
observable calls are recorded as explicit events.
-/

/-- A single-quote character, used when assembling the content-security
policy text of the generated markup. -/
def apos : String := String.singleton (Char.ofNat 39)

/-- Message sent from the webview to the extension host. Mirrors the
MessageFromWebview interface: a command discriminant and an optional text
field. The command is optional so that inbound messages lacking the field
can be expressed. -/
structure WebviewMessage where
  command : Option String
  text : Option String
deriving DecidableEq

/-- Payload of the dataResponse message built by the getData handler. -/
structure DataPayload where
  message : String
deriving DecidableEq

/-- Message sent from the extension host back to the webview, mirroring the
MessageToWebview interface. -/
structure ExtensionMessage where
  command : String
  data : Option DataPayload
deriving DecidableEq

/-- State of one ExamplePanel instance: the handle of its underlying native
webview panel, its originating extension location, the ids of the
subscriptions pushed into the private disposables array (in push order), and
the html assigned to its webview. -/
structure ExamplePanel where
  panel : Nat
  extensionUri : String
  disposables : List Nat
  html : String
deriving DecidableEq

/-- Observable host-platform effects produced by one run of the inbound
message handler: the arguments of showInformationMessage calls, and the
messages posted back, each paired with the handle of the target webview
panel. -/
structure HandlerEffects where
  notifications : List (Option String)
  posts : List (Nat × ExtensionMessage)
deriving DecidableEq

/-- The onDidReceiveMessage handler of ExamplePanel: a switch on the command
field. The alert case shows the received text verbatim; the getData case
posts a dataResponse to the same panel; any other command falls through the
switch with no effect. The instance state is returned unchanged, as the
handler never writes a field. -/
def onDidReceiveMessage (p : ExamplePanel) (msg : WebviewMessage) :
    ExamplePanel × HandlerEffects :=
  match msg.command with
  | some c =>
    if c = "alert" then
      (p, { notifications := [msg.text], posts := [] })
    else if c = "getData" then
      (p, { notifications := [],
            posts := [(p.panel,
              { command := "dataResponse",
                data := some { message := "Hello from extension!" } })] })
    else (p, { notifications := [], posts := [] })
  | none => (p, { notifications := [], posts := [] })

/-- The Send Alert click handler of the webview (App.tsx handleSendMessage):
posts one alert message whose text is the input state, or the fallback
text when the input state is the empty string. -/
def handleSendMessage (message : String) : List WebviewMessage :=
  [{ command := some "alert",
     text := some (if message = "" then "Hello from webview!" else message) }]

/-- The Get Data click handler of the webview (App.tsx handleGetData):
posts one getData message with no text field. -/
def handleGetData : List WebviewMessage :=
  [{ command := some "getData", text := none }]

/-- A concrete panel instance used in closed statements. -/
def examplePanel0 : ExamplePanel :=
  { panel := 0, extensionUri := "/ext", disposables := [1, 2], html := "" }

/-- Test for the lowercase hexadecimal characters, the alphabet out of which
the modelled nonce tokens are drawn. -/
def isHexC (c : Char) : Bool :=
  (48 ≤ c.toNat && c.toNat ≤ 57) || (97 ≤ c.toNat && c.toNat ≤ 102)

/-- The lowercase hexadecimal character of one digit value. -/
def hexChar (d : Nat) : Char :=
  if d < 10 then Char.ofNat (48 + d) else Char.ofNat (87 + d)

/-- Digit values of a number in base sixteen, least significant first. -/
def hexDigsLE (n : Nat) : List Nat :=
  if h : n = 0 then [] else n % 16 :: hexDigsLE (n / 16)
decreasing_by exact Nat.div_lt_self (Nat.pos_of_ne_zero h) (by omega)

/-- Recombine a least-significant-first base-sixteen digit list. -/
def unHexLE : List Nat → Nat
  | [] => 0
  | d :: ds => d + 16 * unHexLE ds

/-- Modelled from the spec: the nonce generator of src/utils/getNonce.ts,
which the panel imports but whose file is not among the provided sources.
The spec describes it as producing a fresh random token per render, never
reused across renders. The randomness supply is modelled as a per-render
seed; the token is the hexadecimal encoding of the seed offset by 16 ^ 31,
which makes every token at least 32 hexadecimal characters long and gives
distinct tokens for distinct seeds. -/
def getNonce (seed : Nat) : String :=
  String.mk ((hexDigsLE (seed + 16 ^ 31)).map hexChar)

/-- Leading part of the markup document, up to the opening quote of the
content attribute of the content-security-policy meta tag. -/
def cspDocPre : String :=
  "<!DOCTYPE html>\n<html lang=\"en\">\n  <head>\n    <meta charset=\"UTF-8\">\n    <meta name=\"viewport\" content=\"width=device-width, initial-scale=1.0\">\n    <meta http-equiv=\"Content-Security-Policy\" content=\""

/-- First literal chunk of the markup template: everything before the
interpolated cspSource. -/
def htmlChunk1 : String :=
  cspDocPre ++ "default-src " ++ apos ++ "none" ++ apos ++ "; style-src "

/-- Literal chunk between the interpolated cspSource and the first
interpolated nonce. -/
def htmlChunk2 : String :=
  " " ++ apos ++ "unsafe-inline" ++ apos ++ "; script-src " ++ apos ++ "nonce-"

/-- Markup text between the end of the policy text and the interpolated
stylesheet location. -/
def cspDocPost : String :=
  "\">\n    <link href=\""

/-- Literal chunk between the first interpolated nonce and the interpolated
stylesheet location. -/
def htmlChunk3 : String :=
  apos ++ ";" ++ cspDocPost

/-- Markup text between the interpolated stylesheet location and the opening
of the script tag. -/
def htmlChunk4a : String :=
  "\" rel=\"stylesheet\">\n    <title>Example Panel</title>\n  </head>\n  <body>\n    <div id=\"root\"></div>\n    "

/-- Opening of the nonce-guarded script tag, up to the opening quote of its
nonce attribute. -/
def scriptOpen : String :=
  "<script type=\"module\" nonce=\""

/-- Literal chunk between the interpolated stylesheet location and the
second interpolated nonce. -/
def htmlChunk4 : String :=
  htmlChunk4a ++ scriptOpen

/-- Literal chunk between the second interpolated nonce and the interpolated
script location. -/
def htmlChunk5 : String :=
  "\" src=\""

/-- Closing part of the script tag, after the interpolated script
location. -/
def scriptClose : String :=
  "\"></script>"

/-- Markup text after the script tag. -/
def htmlTail : String :=
  "\n  </body>\n</html>"

/-- Trailing literal chunk of the markup template. -/
def htmlChunk6 : String :=
  scriptClose ++ htmlTail

/-- The markup generator of ExamplePanel. The template literal of
getHtmlForWebview, with its five interpolation points (cspSource, nonce,
stylesheet location, nonce again, script location) made explicit. -/
def getHtmlForWebview (cspSource styleUri scriptUri nonce : String) : String :=
  htmlChunk1 ++ cspSource ++ htmlChunk2 ++ nonce ++ htmlChunk3 ++ styleUri ++
    htmlChunk4 ++ nonce ++ htmlChunk5 ++ scriptUri ++ htmlChunk6

/-- Representative value of the opaque platform-provided webview.cspSource
(the origin from which webview resources are served). -/
def webviewCspSource : String := "https://*.vscode-cdn.net"

/-- Model of the opaque platform service webview.asWebviewUri: resolve a
local resource path to a webview-servable location. -/
def asWebviewUri (u : String) : String :=
  "https://file%2B.vscode-resource.vscode-cdn.net" ++ u

/-- Path joining, mirroring Uri.joinPath. -/
def joinPath (a b : String) : String := a ++ "/" ++ b

/-- Resolved location of the bundled webview script, as computed in
getHtmlForWebview. -/
def scriptUriOf (extensionUri : String) : String :=
  asWebviewUri (joinPath extensionUri "webview-ui/dist/assets/index.js")

/-- Resolved location of the bundled webview stylesheet, as computed in
getHtmlForWebview. -/
def styleUriOf (extensionUri : String) : String :=
  asWebviewUri (joinPath extensionUri "webview-ui/dist/assets/index.css")

/-- The markup document of one render: the generator applied to the
platform-resolved asset locations of a given extension location and to the
nonce of the given render seed. -/
def exampleHtml (extensionUri : String) (seed : Nat) : String :=
  getHtmlForWebview webviewCspSource (styleUriOf extensionUri)
    (scriptUriOf extensionUri) (getNonce seed)

/-- One source expression of a content-security-policy directive. -/
inductive CspSource
  | noneKw
  | origin (o : String)
  | unsafeInline
  | nonceTok (n : String)
deriving DecidableEq

/-- The directives of the content-security policy declared by the markup
generator: a default directive and the style and script directives. -/
structure ContentSecurityPolicy where
  defaultSrc : List CspSource
  styleSrc : List CspSource
  scriptSrc : List CspSource
deriving DecidableEq

/-- The policy that the ExamplePanel markup declares: default-src none,
style-src cspSource plus unsafe-inline, script-src the nonce. -/
def examplePanelCsp (cspSource nonce : String) : ContentSecurityPolicy :=
  { defaultSrc := [CspSource.noneKw]
    styleSrc := [CspSource.origin cspSource, CspSource.unsafeInline]
    scriptSrc := [CspSource.nonceTok nonce] }

/-- Textual form of one policy source expression. -/
def renderSource : CspSource → String
  | CspSource.noneKw => apos ++ "none" ++ apos
  | CspSource.origin o => o
  | CspSource.unsafeInline => apos ++ "unsafe-inline" ++ apos
  | CspSource.nonceTok n => apos ++ "nonce-" ++ n ++ apos

/-- Space-separated textual form of a source list. -/
def renderSrcList : List CspSource → String
  | [] => ""
  | [s] => renderSource s
  | s :: rest => renderSource s ++ " " ++ renderSrcList rest

/-- Textual form of the whole policy, as it appears in the content attribute
of the generated meta tag. -/
def renderCsp (c : ContentSecurityPolicy) : String :=
  "default-src " ++ renderSrcList c.defaultSrc ++ "; style-src " ++
    renderSrcList c.styleSrc ++ "; script-src " ++ renderSrcList c.scriptSrc ++ ";"

/-- A style load that a rendered page may attempt: an inline style, or an
external sheet from some origin. Minimal model of the content-security
semantics of the host platform, an opaque external service. -/
inductive StyleLoad
  | inlineStyle
  | externalSheet (o : String)
deriving DecidableEq

/-- A script load that a rendered page may attempt. -/
inductive ScriptLoad
  | inlineScript
  | noncedScript (n : String)
  | externalScript (o : String)
deriving DecidableEq

/-- Whether the style directive of a policy permits a style load. -/
def styleAllowed (c : ContentSecurityPolicy) : StyleLoad → Bool
  | StyleLoad.inlineStyle => c.styleSrc.contains CspSource.unsafeInline
  | StyleLoad.externalSheet o => c.styleSrc.contains (CspSource.origin o)

/-- Whether the script directive of a policy permits a script load. -/
def scriptAllowed (c : ContentSecurityPolicy) : ScriptLoad → Bool
  | ScriptLoad.inlineScript => c.scriptSrc.contains CspSource.unsafeInline
  | ScriptLoad.noncedScript n => c.scriptSrc.contains (CspSource.nonceTok n)
  | ScriptLoad.externalScript o => c.scriptSrc.contains (CspSource.origin o)

/-- Whether the default directive of a policy permits a load from an origin,
for the load kinds with no dedicated directive. -/
def fallbackAllows (c : ContentSecurityPolicy) (o : String) : Bool :=
  c.defaultSrc.contains (CspSource.origin o)

/-- Observable calls into the host platform made by the lifecycle code, in
program order. -/
inductive HostEvent
  | reveal (panelId : Nat)
  | createWebviewPanel (panelId : Nat)
  | setHtml (panelId : Nat) (html : String)
  | subscribeOnDidDispose (panelId subId : Nat)
  | subscribeOnDidReceiveMessage (panelId subId : Nat)
  | clearCurrentPanel
  | disposeNativePanel (panelId : Nat)
  | disposeSubscription (subId : Nat)
deriving DecidableEq

/-- Process-wide state owned by the lifecycle manager: the static
currentPanel slot, a fresh-id supply for platform handles, and the
randomness supply consumed by the nonce generator. -/
structure HostState where
  currentPanel : Option ExamplePanel
  nextHandle : Nat
  renderSeed : Nat
deriving DecidableEq

/-- The fresh instance at the start of the private constructor: fields
assigned, the private disposables array initialized to the empty list, no
html yet. -/
def ctorStart (panelId : Nat) (extensionUri : String) : ExamplePanel :=
  { panel := panelId, extensionUri := extensionUri, disposables := [], html := "" }

/-- Assign the generated markup to the webview of the instance, as the
constructor does first. -/
def setHtmlStep (p : ExamplePanel) (seed : Nat) : ExamplePanel :=
  { p with html := (getHtmlForWebview webviewCspSource (styleUriOf p.extensionUri)
      (scriptUriOf p.extensionUri) (getNonce seed)) }

/-- Push one subscription id onto the private disposables array, as each of
the two event registrations of the constructor does. -/
def pushDisposable (p : ExamplePanel) (subId : Nat) : ExamplePanel :=
  { p with disposables := p.disposables ++ [subId] }

/-- The private constructor of ExamplePanel: starting from the fresh
instance, set the html, then register the onDidDispose listener and the
onDidReceiveMessage listener, each pushed onto the disposables array. -/
def runCtor (panelId : Nat) (extensionUri : String) (seed : Nat)
    (didDisposeId msgId : Nat) : ExamplePanel :=
  pushDisposable
    (pushDisposable (setHtmlStep (ctorStart panelId extensionUri) seed) didDisposeId)
    msgId

/-- ExamplePanel.createOrShow: if the static currentPanel slot is occupied,
reveal the existing native view and return with the state unchanged;
otherwise create one native webview panel, run the private constructor, and
store the new instance in the slot. -/
def createOrShow (st : HostState) (extensionUri : String) :
    HostState × List HostEvent :=
  match st.currentPanel with
  | some p => (st, [HostEvent.reveal p.panel])
  | none =>
    let panelId := st.nextHandle
    let inst := runCtor panelId extensionUri st.renderSeed (panelId + 1) (panelId + 2)
    ({ currentPanel := some inst
       nextHandle := st.nextHandle + 3
       renderSeed := st.renderSeed + 1 },
     [HostEvent.createWebviewPanel panelId,
      HostEvent.setHtml panelId inst.html,
      HostEvent.subscribeOnDidDispose panelId (panelId + 1),
      HostEvent.subscribeOnDidReceiveMessage panelId (panelId + 2)])

/-- ExamplePanel.dispose, with its observable trace: clear the static
currentPanel slot, dispose the native panel, then pop the disposables array
until empty, disposing each popped subscription. Returns the instance after
the run, the process state after the run, and the trace. -/
def dispose (p : ExamplePanel) (st : HostState) :
    ExamplePanel × HostState × List HostEvent :=
  ({ p with disposables := [] },
   { st with currentPanel := none },
   HostEvent.clearCurrentPanel ::
     HostEvent.disposeNativePanel p.panel ::
     p.disposables.reverse.map HostEvent.disposeSubscription)

/-- Number of native webview panels created in a trace. -/
def createCount (evs : List HostEvent) : Nat :=
  (evs.filter fun e =>
    match e with
    | HostEvent.createWebviewPanel _ => true
    | _ => false).length

/-- The subscription ids disposed in a trace, in order. -/
def subscriptionDisposals (evs : List HostEvent) : List Nat :=
  evs.filterMap fun e =>
    match e with
    | HostEvent.disposeSubscription i => some i
    | _ => none

/-- Whether an event releases an owned resource (the native view or one
registered cleanup action). -/
def isReleaseEvent : HostEvent → Bool
  | HostEvent.disposeNativePanel _ => true
  | HostEvent.disposeSubscription _ => true
  | _ => false

/-- The ordering property asserted by the spec sentence about dispose: every
release of an owned resource precedes the clearing of the singleton slot. -/
def clearAfterReleases (tr : List HostEvent) : Prop :=
  ∀ i j : Fin tr.length, tr.get i = HostEvent.clearCurrentPanel →
    isReleaseEvent (tr.get j) = true → (j : Nat) < (i : Nat)

/-- A concrete process state whose slot holds the concrete panel instance. -/
def hostState0 : HostState :=
  { currentPanel := some examplePanel0, nextHandle := 3, renderSeed := 1 }

/-- A concrete empty process state. -/
def hostStateEmpty : HostState :=
  { currentPanel := none, nextHandle := 0, renderSeed := 0 }

/-- Whether the first list is an initial segment of the second. -/
def leadsWith : List Char → List Char → Bool
  | [], _ => true
  | _ :: _, [] => false
  | p :: ps, c :: cs => p == c && leadsWith ps cs

/-- Number of positions of the second list at which the first list occurs as
a contiguous segment. -/
def countOccs (l pat : List Char) : Nat :=
  match l with
  | [] => 0
  | c :: rest => (if leadsWith pat (c :: rest) then 1 else 0) + countOccs rest pat

/-- Occurrence count of a pattern string inside a subject string. -/
def countOccsStr (s pat : String) : Nat := countOccs s.data pat.data

/-- Length of the hexadecimal run at the head of a list. -/
def runFrom : List Char → Nat
  | [] => 0
  | c :: l => if isHexC c then runFrom l + 1 else 0

/-- Length of the longest hexadecimal run anywhere in a list. -/
def maxRun : List Char → Nat
  | [] => 0
  | c :: l => max (runFrom (c :: l)) (maxRun l)

/-- Whether a list is empty or starts with a non-hexadecimal character. -/
def headNotHexB (l : List Char) : Bool :=
  match l with
  | [] => true
  | c :: _ => !(isHexC c)

/-- Whether a list is empty or ends with a non-hexadecimal character. -/
def lastNotHexB (l : List Char) : Bool :=
  match l.reverse with
  | [] => true
  | c :: _ => !(isHexC c)

/-- Characters of the markup document before the first interpolated
nonce. -/
def chunkA : List Char := (htmlChunk1 ++ webviewCspSource ++ htmlChunk2).data

/-- Characters of the markup document between the two interpolated
nonces. -/
def chunkB (extensionUri : String) : List Char :=
  (htmlChunk3 ++ styleUriOf extensionUri ++ htmlChunk4).data

/-- Characters of the markup document after the second interpolated
nonce. -/
def chunkC (extensionUri : String) : List Char :=
  (htmlChunk5 ++ scriptUriOf extensionUri ++ htmlChunk6).data

/-- Characters of a concatenation. -/
theorem data_append (a b : String) : (a ++ b).data = a.data ++ b.data := rfl

/-- A list is an initial segment of itself followed by anything. -/
theorem leadsWith_append_self (p t : List Char) : leadsWith p (p ++ t) = true := by
  induction p with
  | nil => rfl
  | cons c ps ih => simp [leadsWith, ih]

/-- An initial segment witnesses a decomposition. -/
theorem exists_of_leadsWith {p l : List Char} (h : leadsWith p l = true) :
    ∃ t, l = p ++ t := by
  induction p generalizing l with
  | nil => exact ⟨l, rfl⟩
  | cons c ps ih =>
    cases l with
    | nil => simp [leadsWith] at h
    | cons d ds =>
      simp only [leadsWith, Bool.and_eq_true, beq_iff_eq] at h
      obtain ⟨rfl, h2⟩ := h
      obtain ⟨t, rfl⟩ := ih h2
      exact ⟨t, rfl⟩

/-- An initial segment is no longer than the whole. -/
theorem length_le_of_leadsWith {p l : List Char} (h : leadsWith p l = true) :
    p.length ≤ l.length := by
  obtain ⟨t, rfl⟩ := exists_of_leadsWith h
  simp

/-- An initial segment of a concatenation that fits inside the left part is
an initial segment of the left part. -/
theorem leadsWith_of_append {p a b : List Char} (h : leadsWith p (a ++ b) = true)
    (hl : p.length ≤ a.length) : leadsWith p a = true := by
  induction p generalizing a with
  | nil => rfl
  | cons c ps ih =>
    cases a with
    | nil => simp at hl
    | cons d ds =>
      simp only [List.cons_append, leadsWith, Bool.and_eq_true, beq_iff_eq] at h
      simp only [leadsWith, Bool.and_eq_true, beq_iff_eq]
      exact ⟨h.1, ih h.2 (by simpa using hl)⟩

/-- An initial segment of a concatenation that covers the left part splits
into the left part and an initial segment of the right part. -/
theorem leadsWith_append_extract {p a b : List Char} (h : leadsWith p (a ++ b) = true)
    (hl : a.length ≤ p.length) : ∃ r, p = a ++ r ∧ leadsWith r b = true := by
  induction a generalizing p with
  | nil => exact ⟨p, rfl, h⟩
  | cons d ds ih =>
    cases p with
    | nil => simp at hl
    | cons c cs =>
      simp only [List.cons_append, leadsWith, Bool.and_eq_true, beq_iff_eq] at h
      obtain ⟨rfl, h2⟩ := h
      obtain ⟨r, rfl, hr⟩ := ih h2 (by simpa using hl)
      exact ⟨r, rfl, hr⟩

/-- An initial segment stays an initial segment after extending the list. -/
theorem leadsWith_append_extend {p a : List Char} (b : List Char)
    (h : leadsWith p a = true) : leadsWith p (a ++ b) = true := by
  obtain ⟨t, rfl⟩ := exists_of_leadsWith h
  rw [List.append_assoc]
  exact leadsWith_append_self p (t ++ b)

/-- Reading off the head condition. -/
theorem headNotHexB_spec {c : Char} {t : List Char}
    (h : headNotHexB (c :: t) = true) : isHexC c = false := by
  simpa [headNotHexB] using h

/-- Reading off the last-character condition through the reversal. -/
theorem lastNotHexB_spec {x : List Char} {c : Char} {t : List Char}
    (h : lastNotHexB x = true) (he : x.reverse = c :: t) : isHexC c = false := by
  unfold lastNotHexB at h
  rw [he] at h
  simpa using h

/-- The head condition is preserved by extending a nonempty list on the
right. -/
theorem headNotHexB_append {a : List Char} (z : List Char)
    (h : headNotHexB a = true) (ha : a ≠ []) : headNotHexB (a ++ z) = true := by
  cases a with
  | nil => exact absurd rfl ha
  | cons c t => simpa [headNotHexB] using h

/-- Every nonempty list has a reversal starting with its last character. -/
theorem reverse_cons_of_ne_nil {l : List Char} (h : l ≠ []) :
    ∃ c t, l.reverse = c :: t := by
  cases hr : l.reverse with
  | nil => exact absurd (List.reverse_eq_nil_iff.mp hr) h
  | cons c t => exact ⟨c, t, rfl⟩

/-- The head run is at most the longest run. -/
theorem runFrom_le_maxRun (l : List Char) : runFrom l ≤ maxRun l := by
  cases l with
  | nil => exact Nat.le_refl 0
  | cons c l => exact Nat.le_max_left _ _

/-- The longest run of a tail is at most that of the whole. -/
theorem maxRun_cons_le (c : Char) (l : List Char) : maxRun l ≤ maxRun (c :: l) :=
  Nat.le_max_right _ _

/-- A hexadecimal initial segment is bounded by the head run. -/
theorem runFrom_ge_of_leadsWith {p l : List Char} (hp : p.all isHexC = true)
    (h : leadsWith p l = true) : p.length ≤ runFrom l := by
  induction p generalizing l with
  | nil => exact Nat.zero_le _
  | cons c ps ih =>
    cases l with
    | nil => simp [leadsWith] at h
    | cons d ds =>
      simp only [leadsWith, Bool.and_eq_true, beq_iff_eq] at h
      obtain ⟨rfl, h2⟩ := h
      simp only [List.all_cons, Bool.and_eq_true] at hp
      simp only [List.length_cons, runFrom, hp.1, if_true]
      exact Nat.succ_le_succ (ih hp.2 h2)

/-- A hexadecimal pattern longer than every run of a list never occurs in
it. -/
theorem countOccs_eq_zero_of_maxRun_lt {p l : List Char} (hp : p.all isHexC = true)
    (hrun : maxRun l < p.length) : countOccs l p = 0 := by
  induction l with
  | nil => rfl
  | cons c rest ih =>
    have hhead : leadsWith p (c :: rest) = false := by
      cases hb : leadsWith p (c :: rest) with
      | false => rfl
      | true =>
        have h1 := runFrom_ge_of_leadsWith hp hb
        have h2 := runFrom_le_maxRun (c :: rest)
        omega
    have htail : maxRun rest < p.length :=
      Nat.lt_of_le_of_lt (maxRun_cons_le c rest) hrun
    simp [countOccs, hhead, ih htail]

/-- A pattern starting with a non-hexadecimal character never occurs at a
position inside an all-hexadecimal region. -/
theorem countOccs_hexPre_eq {ph : Char} {pt s y : List Char}
    (hph : isHexC ph = false) (hs : s.all isHexC = true) :
    countOccs (s ++ y) (ph :: pt) = countOccs y (ph :: pt) := by
  induction s with
  | nil => rfl
  | cons c s ih =>
    simp only [List.all_cons, Bool.and_eq_true] at hs
    have hne : (ph == c) = false := by
      apply beq_eq_false_iff_ne.mpr
      intro he
      rw [he, hs.1] at hph
      exact Bool.noConfusion hph
    have hhead : leadsWith (ph :: pt) (c :: (s ++ y)) = false := by
      simp [leadsWith, hne]
    calc countOccs ((c :: s) ++ y) (ph :: pt)
        = (if leadsWith (ph :: pt) (c :: (s ++ y)) = true then 1 else 0)
            + countOccs (s ++ y) (ph :: pt) := rfl
      _ = countOccs (s ++ y) (ph :: pt) := by rw [hhead]; simp
      _ = countOccs y (ph :: pt) := ih hs.2

/-- An all-hexadecimal region shorter than the pattern, followed by a list
satisfying the head condition, contributes no occurrence of an
all-hexadecimal pattern. -/
theorem countOccs_shortHex {p s y : List Char} (hphex : p.all isHexC = true)
    (hlen : s.length < p.length) (hs : s.all isHexC = true)
    (hy : headNotHexB y = true) :
    countOccs (s ++ y) p = countOccs y p := by
  induction s with
  | nil => rfl
  | cons c s ih =>
    simp only [List.all_cons, Bool.and_eq_true] at hs
    have hhead : leadsWith p (c :: (s ++ y)) = false := by
      cases hb : leadsWith p (c :: (s ++ y)) with
      | false => rfl
      | true =>
        rw [show (c :: (s ++ y)) = (c :: s) ++ y from rfl] at hb
        obtain ⟨r, hpr, hr⟩ := leadsWith_append_extract hb (Nat.le_of_lt hlen)
        have hrne : r ≠ [] := by
          intro h0
          rw [h0, List.append_nil] at hpr
          rw [hpr] at hlen
          exact Nat.lt_irrefl _ hlen
        cases r with
        | nil => exact absurd rfl hrne
        | cons a b =>
          cases y with
          | nil => simp [leadsWith] at hr
          | cons ch t =>
            simp only [leadsWith, Bool.and_eq_true, beq_iff_eq] at hr
            have ha : isHexC a = true := by
              have ham : a ∈ p := by
                rw [hpr]
                exact List.mem_append_right _ (List.mem_cons_self a b)
              exact List.all_eq_true.mp hphex a ham
            have hch : isHexC ch = false := headNotHexB_spec hy
            rw [hr.1, hch] at ha
            exact Bool.noConfusion ha
    have hlen2 : s.length < p.length := by
      simp only [List.length_cons] at hlen
      omega
    calc countOccs ((c :: s) ++ y) p
        = (if leadsWith p (c :: (s ++ y)) = true then 1 else 0)
            + countOccs (s ++ y) p := rfl
      _ = countOccs (s ++ y) p := by rw [hhead]; simp
      _ = countOccs y p := ih hlen2 hs.2

/-- No occurrence of a pattern whose first and last characters are not
hexadecimal can start inside a nonempty left part and reach across an
all-hexadecimal separator at least as long as the pattern. -/
theorem leadsWith_sep_iff {p s y : List Char} (x : List Char) (hx : x ≠ [])
    (_hph : headNotHexB p = true) (hpl : lastNotHexB p = true)
    (hs : s.all isHexC = true) (hlen : p.length ≤ s.length) :
    leadsWith p (x ++ (s ++ y)) = leadsWith p x := by
  cases hb : leadsWith p x with
  | true => exact leadsWith_append_extend (s ++ y) hb
  | false =>
    cases hbig : leadsWith p (x ++ (s ++ y)) with
    | false => rfl
    | true =>
      exfalso
      rcases le_or_lt p.length x.length with hle | hlt
      · rw [leadsWith_of_append hbig hle] at hb
        exact Bool.noConfusion hb
      · obtain ⟨r, hpr, hr⟩ := leadsWith_append_extract hbig (Nat.le_of_lt hlt)
        have hlp : p.length = x.length + r.length := by
          rw [hpr]; simp
        have hrne : r ≠ [] := by
          intro h0
          rw [h0] at hlp
          simp at hlp
          omega
        have hxne : 1 ≤ x.length := by
          cases x with
          | nil => exact absurd rfl hx
          | cons a b => simp
        have hrlen : r.length ≤ s.length := by omega
        have hrs : leadsWith r s = true := leadsWith_of_append hr hrlen
        obtain ⟨t2, hst⟩ := exists_of_leadsWith hrs
        obtain ⟨cl, tr, hrev⟩ := reverse_cons_of_ne_nil hrne
        have hclr : cl ∈ r := by
          have : cl ∈ r.reverse := by rw [hrev]; exact List.mem_cons_self cl tr
          exact List.mem_reverse.mp this
        have hcls : cl ∈ s := by
          rw [hst]; exact List.mem_append_left _ hclr
        have hclhex : isHexC cl = true := List.all_eq_true.mp hs cl hcls
        have hprev : p.reverse = cl :: (tr ++ x.reverse) := by
          rw [hpr, List.reverse_append, hrev]; rfl
        have := lastNotHexB_spec hpl hprev
        rw [this] at hclhex
        exact Bool.noConfusion hclhex

/-- Occurrence counting distributes over an all-hexadecimal separator for a
pattern bounded by the separator whose boundary characters are not
hexadecimal. -/
theorem countOccs_sep {p s y : List Char} (x : List Char) (hp : p ≠ [])
    (hph : headNotHexB p = true) (hpl : lastNotHexB p = true)
    (hs : s.all isHexC = true) (hlen : p.length ≤ s.length) :
    countOccs (x ++ (s ++ y)) p = countOccs x p + countOccs y p := by
  induction x with
  | nil =>
    cases p with
    | nil => exact absurd rfl hp
    | cons ph pt =>
      have hphx : isHexC ph = false := headNotHexB_spec hph
      simpa [countOccs] using @countOccs_hexPre_eq ph pt s y hphx hs
  | cons c x ih =>
    have hiff := @leadsWith_sep_iff p s y (c :: x) (by simp)
      hph hpl hs hlen
    calc countOccs ((c :: x) ++ (s ++ y)) p
        = (if leadsWith p ((c :: x) ++ (s ++ y)) = true then 1 else 0)
            + countOccs (x ++ (s ++ y)) p := rfl
      _ = (if leadsWith p (c :: x) = true then 1 else 0)
            + (countOccs x p + countOccs y p) := by rw [hiff, ih]
      _ = countOccs (c :: x) p + countOccs y p := by
            show _ = (if leadsWith p (c :: x) = true then 1 else 0)
              + countOccs x p + countOccs y p
            omega

/-- Counting one explicit occurrence of an all-hexadecimal pattern: the
pattern region contributes exactly one occurrence when the part before it
ends in a non-hexadecimal character and has only short hexadecimal runs, and
the part after it starts with a non-hexadecimal character. -/
theorem countOccs_hexBlock {p x y : List Char} (hp : p ≠ [])
    (hphex : p.all isHexC = true) (hx : lastNotHexB x = true)
    (hrun : maxRun x < p.length) (hy : headNotHexB y = true) :
    countOccs (x ++ (p ++ y)) p = 1 + countOccs y p := by
  induction x with
  | nil =>
    cases p with
    | nil => exact absurd rfl hp
    | cons p0 pr =>
      have h1 : leadsWith (p0 :: pr) ((p0 :: pr) ++ y) = true :=
        leadsWith_append_self (p0 :: pr) y
      have h2 : countOccs (pr ++ y) (p0 :: pr) = countOccs y (p0 :: pr) := by
        apply countOccs_shortHex hphex (by simp)
        · simp only [List.all_cons, Bool.and_eq_true] at hphex
          exact hphex.2
        · exact hy
      rw [List.nil_append]
      calc countOccs ((p0 :: pr) ++ y) (p0 :: pr)
          = (if leadsWith (p0 :: pr) ((p0 :: pr) ++ y) = true then 1 else 0)
              + countOccs (pr ++ y) (p0 :: pr) := by
            simp only [List.cons_append, countOccs, List.append_eq]
        _ = 1 + countOccs y (p0 :: pr) := by rw [h1, h2]; simp
  | cons c x ih =>
    have hhead : leadsWith p (c :: (x ++ (p ++ y))) = false := by
      cases hb : leadsWith p (c :: (x ++ (p ++ y))) with
      | false => rfl
      | true =>
        exfalso
        rw [show (c :: (x ++ (p ++ y))) = (c :: x) ++ (p ++ y) from rfl] at hb
        rcases le_or_lt p.length (c :: x).length with hle | hlt
        · have hsmall := leadsWith_of_append hb hle
          have hge := runFrom_ge_of_leadsWith hphex hsmall
          have hle2 := runFrom_le_maxRun (c :: x)
          omega
        · obtain ⟨r, hpr, hr⟩ := leadsWith_append_extract hb (Nat.le_of_lt hlt)
          obtain ⟨cl, tr, hrev⟩ := @reverse_cons_of_ne_nil (c :: x) (by simp)
          have hclm : cl ∈ (c :: x) := by
            have : cl ∈ (c :: x).reverse := by
              rw [hrev]; exact List.mem_cons_self cl tr
            exact List.mem_reverse.mp this
          have hclp : cl ∈ p := by
            rw [hpr]; exact List.mem_append_left _ hclm
          have hclhex : isHexC cl = true := List.all_eq_true.mp hphex cl hclp
          have := lastNotHexB_spec hx hrev
          rw [this] at hclhex
          exact Bool.noConfusion hclhex
    have hx2 : lastNotHexB x = true := by
      cases x with
      | nil => rfl
      | cons d m =>
        unfold lastNotHexB at hx ⊢
        have : (c :: d :: m).reverse = (d :: m).reverse ++ [c] := by simp
        rw [this] at hx
        obtain ⟨cl, tr, hrev⟩ := @reverse_cons_of_ne_nil (d :: m) (by simp)
        rw [hrev] at hx ⊢
        simpa using hx
    have hrun2 : maxRun x < p.length :=
      Nat.lt_of_le_of_lt (maxRun_cons_le c x) hrun
    calc countOccs ((c :: x) ++ (p ++ y)) p
        = (if leadsWith p (c :: (x ++ (p ++ y))) = true then 1 else 0)
            + countOccs (x ++ (p ++ y)) p := rfl
      _ = countOccs (x ++ (p ++ y)) p := by rw [hhead]; simp
      _ = 1 + countOccs y p := ih hx2 hrun2

/-- All base-sixteen digit values are below sixteen. -/
theorem hexDigsLE_lt (n : Nat) : ∀ d ∈ hexDigsLE n, d < 16 := by
  induction n using Nat.strong_induction_on with
  | _ n ih =>
    rw [hexDigsLE]
    split
    · intro d hd
      simp at hd
    · intro d hd
      rcases List.mem_cons.mp hd with h | h
      · subst h
        exact Nat.mod_lt _ (by omega)
      · exact ih (n / 16) (Nat.div_lt_self (Nat.pos_of_ne_zero (by assumption)) (by omega)) d h

/-- Recombination inverts the digit expansion. -/
theorem unHex_hexDigsLE (n : Nat) : unHexLE (hexDigsLE n) = n := by
  induction n using Nat.strong_induction_on with
  | _ n ih =>
    rw [hexDigsLE]
    split
    · subst ‹n = 0›
      rfl
    · have hpos : 0 < n := Nat.pos_of_ne_zero (by assumption)
      show n % 16 + 16 * unHexLE (hexDigsLE (n / 16)) = n
      rw [ih (n / 16) (Nat.div_lt_self hpos (by omega))]
      exact Nat.mod_add_div n 16

/-- The digit expansion is injective. -/
theorem hexDigsLE_inj {a b : Nat} (h : hexDigsLE a = hexDigsLE b) : a = b := by
  rw [← unHex_hexDigsLE a, ← unHex_hexDigsLE b, h]

/-- The hexadecimal character map is injective on digit values. -/
theorem hexChar_inj16 : ∀ a b : Fin 16, hexChar a.val = hexChar b.val → a = b := by
  decide

/-- Every hexadecimal character of a digit value is in the hexadecimal
alphabet. -/
theorem isHexC_hexChar : ∀ d : Fin 16, isHexC (hexChar d.val) = true := by
  decide

/-- Mapping to characters is injective on digit lists. -/
theorem map_hexChar_inj : ∀ {da db : List Nat}, (∀ d ∈ da, d < 16) →
    (∀ d ∈ db, d < 16) → da.map hexChar = db.map hexChar → da = db := by
  intro da
  induction da with
  | nil =>
    intro db _ _ h
    cases db with
    | nil => rfl
    | cons b bs => simp at h
  | cons a as ih =>
    intro db ha hb h
    cases db with
    | nil => simp at h
    | cons b bs =>
      simp only [List.map_cons, List.cons.injEq] at h
      have ha0 : a < 16 := ha a (List.mem_cons_self a as)
      have hb0 : b < 16 := hb b (List.mem_cons_self b bs)
      have hab : a = b := by
        have := hexChar_inj16 ⟨a, ha0⟩ ⟨b, hb0⟩ h.1
        exact congrArg Fin.val this
      have htl : as = bs := ih
        (fun d hd => ha d (List.mem_cons_of_mem a hd))
        (fun d hd => hb d (List.mem_cons_of_mem b hd)) h.2
      rw [hab, htl]

/-- Distinct seeds give distinct nonce tokens. -/
theorem getNonce_inj {s1 s2 : Nat} (h : getNonce s1 = getNonce s2) : s1 = s2 := by
  have hd : (hexDigsLE (s1 + 16 ^ 31)).map hexChar
      = (hexDigsLE (s2 + 16 ^ 31)).map hexChar := congrArg String.data h
  have := hexDigsLE_inj (map_hexChar_inj
    (hexDigsLE_lt (s1 + 16 ^ 31)) (hexDigsLE_lt (s2 + 16 ^ 31)) hd)
  omega

/-- Every character of a nonce token is hexadecimal. -/
theorem getNonce_all_hex (seed : Nat) : (getNonce seed).data.all isHexC = true := by
  apply List.all_eq_true.mpr
  intro c hc
  simp only [getNonce] at hc
  obtain ⟨d, hd, rfl⟩ := List.mem_map.mp hc
  exact isHexC_hexChar ⟨d, hexDigsLE_lt _ d hd⟩

/-- A digit expansion of a number at least sixteen to the k has more than k
digits. -/
theorem hexDigsLE_length_ge : ∀ (k n : Nat), 16 ^ k ≤ n →
    k + 1 ≤ (hexDigsLE n).length := by
  intro k
  induction k with
  | zero =>
    intro n hn
    rw [hexDigsLE]
    split
    · omega
    · simp
  | succ k ih =>
    intro n hn
    have hn0 : n ≠ 0 := by
      have : 0 < 16 ^ (k + 1) := Nat.pos_pow_of_pos _ (by omega)
      omega
    rw [hexDigsLE]
    split
    · exact absurd (by assumption) hn0
    · have hdiv : 16 ^ k ≤ n / 16 := by
        apply (Nat.le_div_iff_mul_le (by omega)).mpr
        calc 16 ^ k * 16 = 16 ^ (k + 1) := (pow_succ 16 k).symm
          _ ≤ n := hn
      simp only [List.length_cons]
      exact Nat.succ_le_succ (ih (n / 16) hdiv)

/-- Every nonce token has at least 32 characters. -/
theorem getNonce_length (seed : Nat) : 32 ≤ (getNonce seed).data.length := by
  simp only [getNonce, List.length_map]
  have : 16 ^ 31 ≤ seed + 16 ^ 31 := by omega
  have := hexDigsLE_length_ge 31 (seed + 16 ^ 31) this
  omega

/-- A nonce token is never empty. -/
theorem getNonce_ne_nil (seed : Nat) : (getNonce seed).data ≠ [] := by
  intro h
  have := getNonce_length seed
  rw [h] at this
  simp at this

/-- Character-level decomposition of a rendered document around the two
interpolated nonce occurrences. -/
theorem exampleHtml_data (uri : String) (seed : Nat) :
    (exampleHtml uri seed).data =
      chunkA ++ ((getNonce seed).data ++ (chunkB uri ++ ((getNonce seed).data ++ chunkC uri))) := by
  simp [exampleHtml, getHtmlForWebview, chunkA, chunkB, chunkC, data_append, List.append_assoc]

set_option maxRecDepth 8000 in
/-- A rendered document contains exactly one opening of a script tag. -/
theorem scriptTag_count_one (seed : Nat) :
    countOccsStr (exampleHtml "/ext" seed) "<script" = 1 := by
  unfold countOccsStr
  rw [exampleHtml_data]
  have h7 : ("<script").data.length ≤ (getNonce seed).data.length :=
    le_trans (by decide) (getNonce_length seed)
  rw [countOccs_sep chunkA (by decide) (by decide) (by decide) (getNonce_all_hex seed) h7]
  rw [countOccs_sep (chunkB "/ext") (by decide) (by decide) (by decide) (getNonce_all_hex seed) h7]
  decide

set_option maxRecDepth 8000 in
/-- The nonce of a render occurs exactly twice in the rendered document. -/
theorem nonce_occurrence_two (seed : Nat) :
    countOccs (exampleHtml "/ext" seed).data (getNonce seed).data = 2 := by
  rw [exampleHtml_data]
  have hhex := getNonce_all_hex seed
  have hne := getNonce_ne_nil seed
  have hlen := getNonce_length seed
  have hyB : headNotHexB (chunkB "/ext" ++ ((getNonce seed).data ++ chunkC "/ext")) = true :=
    headNotHexB_append _ (by decide) (by decide)
  rw [countOccs_hexBlock hne hhex (by decide)
    (lt_of_lt_of_le (by decide : maxRun chunkA < 32) hlen) hyB]
  rw [countOccs_hexBlock hne hhex (by decide)
    (lt_of_lt_of_le (by decide : maxRun (chunkB "/ext") < 32) hlen) (by decide)]
  rw [countOccs_eq_zero_of_maxRun_lt hhex
    (lt_of_lt_of_le (by decide : maxRun (chunkC "/ext") < 32) hlen)]

set_option maxRecDepth 8000 in
/-- A rendered document contains exactly one stylesheet link tag. -/
theorem link_count_one (seed : Nat) :
    countOccsStr (exampleHtml "/ext" seed) "<link" = 1 := by
  unfold countOccsStr
  rw [exampleHtml_data]
  have h5 : ("<link").data.length ≤ (getNonce seed).data.length :=
    le_trans (by decide) (getNonce_length seed)
  rw [countOccs_sep chunkA (by decide) (by decide) (by decide) (getNonce_all_hex seed) h5]
  rw [countOccs_sep (chunkB "/ext") (by decide) (by decide) (by decide) (getNonce_all_hex seed) h5]
  decide

set_option maxRecDepth 8000 in
/-- A rendered document contains exactly one mount element. -/
theorem mount_count_one (seed : Nat) :
    countOccsStr (exampleHtml "/ext" seed) "<div id=" = 1 := by
  unfold countOccsStr
  rw [exampleHtml_data]
  have h8 : ("<div id=").data.length ≤ (getNonce seed).data.length :=
    le_trans (by decide) (getNonce_length seed)
  rw [countOccs_sep chunkA (by decide) (by decide) (by decide) (getNonce_all_hex seed) h8]
  rw [countOccs_sep (chunkB "/ext") (by decide) (by decide) (by decide) (getNonce_all_hex seed) h8]
  decide

/-- The rendered document decomposed around its script tag: the tag carries
exactly the nonce of the render. -/
theorem scriptTag_embed (uri : String) (seed : Nat) :
    (exampleHtml uri seed).data =
      (chunkA ++ ((getNonce seed).data ++ (htmlChunk3 ++ styleUriOf uri ++ htmlChunk4a).data))
        ++ (scriptOpen.data ++ ((getNonce seed).data
              ++ (htmlChunk5 ++ scriptUriOf uri ++ scriptClose).data))
        ++ htmlTail.data := by
  simp [exampleHtml, getHtmlForWebview, chunkA, htmlChunk3, htmlChunk4, htmlChunk6,
    data_append, List.append_assoc]

/-- The rendered document decomposed around the content attribute of its
policy meta tag: the attribute is exactly the rendering of the declared
policy. -/
theorem csp_embed (uri : String) (seed : Nat) :
    (exampleHtml uri seed).data =
      cspDocPre.data
        ++ (renderCsp (examplePanelCsp webviewCspSource (getNonce seed))).data
        ++ (cspDocPost ++ styleUriOf uri ++ htmlChunk4 ++ getNonce seed ++ htmlChunk5
              ++ scriptUriOf uri ++ htmlChunk6).data := by
  simp [exampleHtml, getHtmlForWebview, chunkA, htmlChunk1, htmlChunk2, htmlChunk3,
    renderCsp, renderSrcList, renderSource, examplePanelCsp,
    data_append, List.append_assoc]

/-- C3: every inbound getData message, whatever its other fields, makes the
handler post exactly one dataResponse reply carrying the fixed payload back
to the webview of the same panel, and show no notification. -/
theorem getData_reply :
    ∀ (p : ExamplePanel) (t : Option String),
      onDidReceiveMessage p { command := some "getData", text := t } =
        (p, { notifications := [],
              posts := [(p.panel,
                { command := "dataResponse",
                  data := some { message := "Hello from extension!" } })] }) := by
  intro p t
  rfl

/-- C6: an inbound message whose command is neither alert nor getData (also
one with no command at all) triggers no handler branch: no notification, no
reply, the panel state unchanged, and a normal return. -/
theorem unrecognized_command_ignored :
    ∀ (p : ExamplePanel) (msg : WebviewMessage),
      msg.command ≠ some "alert" → msg.command ≠ some "getData" →
      onDidReceiveMessage p msg = (p, { notifications := [], posts := [] }) := by
  intro p msg h1 h2
  cases hm : msg.command with
  | none => simp [onDidReceiveMessage, hm]
  | some c =>
    have h1c : ¬ (c = "alert") := by
      intro he
      exact h1 (by rw [hm, he])
    have h2c : ¬ (c = "getData") := by
      intro he
      exact h2 (by rw [hm, he])
    simp [onDidReceiveMessage, hm, h1c, h2c]

/-- Witness for C6 at a concrete unrecognized message. -/
theorem unrecognized_command_ignored_witness :
    onDidReceiveMessage examplePanel0 { command := some "resize", text := none } =
      (examplePanel0, { notifications := [], posts := [] }) :=
  unrecognized_command_ignored examplePanel0
    { command := some "resize", text := none } (by decide) (by decide)

/-- C2 counterexample: an alert message without a text field makes the host
handler show the missing value, not the fallback text; the claim that the
notification displays the fallback fails at this input. -/
theorem alert_fallback_counterexample :
    (onDidReceiveMessage examplePanel0 { command := some "alert", text := none }).2.notifications
      ≠ [some "Hello from webview!"] := by
  decide

/-- C2 amended: an alert with text shows exactly one notification with that
text; an alert without text shows exactly one notification with the missing
value; the fallback text is substituted by the webview sender when its input
is empty, so a message sent from an empty input shows the fallback. -/
theorem alert_notification_behavior :
    (∀ p : ExamplePanel,
      (onDidReceiveMessage p { command := some "alert", text := some "hi" }).2 =
        { notifications := [some "hi"], posts := [] }) ∧
    (∀ p : ExamplePanel,
      (onDidReceiveMessage p { command := some "alert", text := none }).2 =
        { notifications := [none], posts := [] }) ∧
    handleSendMessage "" =
      [{ command := some "alert", text := some "Hello from webview!" }] ∧
    (∀ p : ExamplePanel,
      (onDidReceiveMessage p
        { command := some "alert", text := some "Hello from webview!" }).2.notifications =
          [some "Hello from webview!"]) := by
  refine ⟨fun p => rfl, fun p => rfl, rfl, fun p => rfl⟩

/-- C10: clicking Send Alert posts exactly one alert message whose text is
the input when nonempty and the fallback when empty; the host alert handler
shows the received text exactly, with no fallback of its own. -/
theorem send_alert_roundtrip :
    (∀ s : String, handleSendMessage s =
        [{ command := some "alert",
           text := some (if s = "" then "Hello from webview!" else s) }]) ∧
    (∀ (p : ExamplePanel) (t : String),
      (onDidReceiveMessage p { command := some "alert", text := some t }).2 =
        { notifications := [some t], posts := [] }) ∧
    (∀ p : ExamplePanel,
      (onDidReceiveMessage p { command := some "alert", text := none }).2 =
        { notifications := [none], posts := [] }) := by
  refine ⟨fun s => rfl, fun p t => rfl, fun p => rfl⟩

/-- C1: if an instance exists, createOrShow only reveals its native view and
returns everything unchanged; if none exists, it creates exactly one native
view and stores the constructed instance as the singleton; opening twice in
a row from an empty slot creates exactly one native view in total. -/
theorem createOrShow_singleton :
    (∀ (st : HostState) (uri : String) (p : ExamplePanel),
      st.currentPanel = some p →
        createOrShow st uri = (st, [HostEvent.reveal p.panel])) ∧
    (∀ (st : HostState) (uri : String), st.currentPanel = none →
        createCount (createOrShow st uri).2 = 1 ∧
        (createOrShow st uri).1.currentPanel =
          some (runCtor st.nextHandle uri st.renderSeed
            (st.nextHandle + 1) (st.nextHandle + 2))) ∧
    (∀ (st : HostState) (uri : String), st.currentPanel = none →
        createCount ((createOrShow st uri).2
            ++ (createOrShow (createOrShow st uri).1 uri).2) = 1 ∧
        (createOrShow (createOrShow st uri).1 uri).1 = (createOrShow st uri).1) := by
  refine ⟨?_, ?_, ?_⟩
  · intro st uri p h
    simp [createOrShow, h]
  · intro st uri h
    refine ⟨?_, ?_⟩
    · simp [createOrShow, h, createCount]
    · simp [createOrShow, h]
  · intro st uri h
    refine ⟨?_, ?_⟩
    · simp [createOrShow, h, createCount]
    · simp [createOrShow, h]

/-- Witness for C1 at concrete states. -/
theorem createOrShow_singleton_witness :
    createOrShow hostState0 "/ext" = (hostState0, [HostEvent.reveal examplePanel0.panel]) ∧
    createCount ((createOrShow hostStateEmpty "/ext").2
      ++ (createOrShow (createOrShow hostStateEmpty "/ext").1 "/ext").2) = 1 :=
  ⟨createOrShow_singleton.1 hostState0 "/ext" examplePanel0 rfl,
   (createOrShow_singleton.2.2 hostStateEmpty "/ext" rfl).1⟩

/-- C4: one dispose run pops and disposes every registered cleanup action
exactly once (the trace of subscription disposals is exactly the reversed
registration list, so each id is disposed as often as it was registered),
leaves the list empty, and a second dispose run disposes no further cleanup
action. -/
theorem dispose_cleanup_exactly_once :
    ∀ (p : ExamplePanel) (st : HostState),
      subscriptionDisposals (dispose p st).2.2 = p.disposables.reverse ∧
      ((dispose p st).1).disposables = [] ∧
      subscriptionDisposals (dispose (dispose p st).1 (dispose p st).2.1).2.2 = [] ∧
      ∀ i : Nat, ((subscriptionDisposals (dispose p st).2.2).count i
        = p.disposables.count i) := by
  intro p st
  have hmap : ∀ l : List Nat,
      subscriptionDisposals (l.map HostEvent.disposeSubscription) = l := by
    intro l
    induction l with
    | nil => rfl
    | cons a t ih => simpa [subscriptionDisposals] using ih
  refine ⟨?_, rfl, ?_, ?_⟩
  · simpa [dispose, subscriptionDisposals] using hmap p.disposables.reverse
  · rfl
  · intro i
    have h1 : subscriptionDisposals (dispose p st).2.2 = p.disposables.reverse := by
      simpa [dispose, subscriptionDisposals] using hmap p.disposables.reverse
    rw [h1, List.count_reverse]

/-- C5 counterexample: in the dispose trace of a concrete panel with two
registered cleanup actions, the singleton slot is cleared before the owned
releases, so the claimed release-then-clear order fails. -/
theorem dispose_order_counterexample :
    ¬ clearAfterReleases (dispose examplePanel0 hostState0).2.2 := by
  unfold clearAfterReleases
  decide

/-- C5 amended: dispose first clears the singleton slot, then disposes the
native view, then releases the owned cleanup actions; afterwards the slot is
empty and the cleanup list is empty. -/
theorem dispose_clears_then_releases :
    ∀ (p : ExamplePanel) (st : HostState),
      (dispose p st).2.2 = HostEvent.clearCurrentPanel ::
          HostEvent.disposeNativePanel p.panel ::
          p.disposables.reverse.map HostEvent.disposeSubscription ∧
      (dispose p st).2.1.currentPanel = none ∧
      ((dispose p st).1).disposables = [] := by
  intro p st
  exact ⟨rfl, rfl, rfl⟩

/-- C8: a constructor run starts from an empty cleanup list; after a dispose
of the prior instance, the next createOrShow stores an instance whose
cleanup list holds exactly its own two fresh registrations, none of which
was registered by the prior instance. -/
theorem fresh_instance_no_leak :
    ∀ (st1 : HostState) (uri : String) (p0 : ExamplePanel),
      st1.currentPanel = some p0 →
      (∀ i ∈ p0.disposables, i < st1.nextHandle) →
      (ctorStart st1.nextHandle uri).disposables = [] ∧
      ((dispose p0 st1).1).disposables = [] ∧
      (createOrShow (dispose p0 st1).2.1 uri).1.currentPanel =
        some (runCtor st1.nextHandle uri st1.renderSeed
          (st1.nextHandle + 1) (st1.nextHandle + 2)) ∧
      (runCtor st1.nextHandle uri st1.renderSeed
          (st1.nextHandle + 1) (st1.nextHandle + 2)).disposables =
        [st1.nextHandle + 1, st1.nextHandle + 2] ∧
      ∀ i ∈ (runCtor st1.nextHandle uri st1.renderSeed
          (st1.nextHandle + 1) (st1.nextHandle + 2)).disposables,
        i ∉ p0.disposables := by
  intro st1 uri p0 hcur hbound
  refine ⟨rfl, rfl, ?_, rfl, ?_⟩
  · simp [createOrShow, dispose]
  · intro i hi hmem
    have hlt := hbound i hmem
    have : i = st1.nextHandle + 1 ∨ i = st1.nextHandle + 2 := by
      simpa [runCtor, pushDisposable, setHtmlStep, ctorStart] using hi
    omega

/-- Witness for C8 at a concrete prior state. -/
theorem fresh_instance_no_leak_witness :
    (ctorStart 3 "/ext").disposables = [] ∧ (4 : Nat) ∉ examplePanel0.disposables :=
  ⟨(fresh_instance_no_leak hostState0 "/ext" examplePanel0 rfl (by decide)).1,
   (fresh_instance_no_leak hostState0 "/ext" examplePanel0 rfl (by decide)).2.2.2.2
     4 (by decide)⟩

/-- C7 counterexample: the declared policy also permits inline styles
(unsafe-inline), which are not the bundled stylesheet, so the claim that
only the bundled stylesheet is allowed for styles fails. -/
theorem csp_style_only_counterexample :
    ¬ (∀ s : StyleLoad,
        styleAllowed (examplePanelCsp webviewCspSource (getNonce 0)) s = true →
          s = StyleLoad.externalSheet webviewCspSource) := by
  intro h
  have := h StyleLoad.inlineStyle (by simp [styleAllowed, examplePanelCsp])
  exact StyleLoad.noConfusion this

/-- C7 amended: the policy denies every unlisted source by default, allows
styles exactly from the webview resource origin plus inline styles, permits
exactly the script bearing the matching nonce; the document embeds exactly
that policy and has a single mount element, exactly one script tag (the
nonce-guarded one), and exactly one stylesheet link. -/
theorem csp_policy_properties :
    (∀ n o : String, fallbackAllows (examplePanelCsp webviewCspSource n) o = false) ∧
    (∀ n o : String,
      styleAllowed (examplePanelCsp webviewCspSource n) (StyleLoad.externalSheet o) = true
        ↔ o = webviewCspSource) ∧
    (∀ n : String,
      styleAllowed (examplePanelCsp webviewCspSource n) StyleLoad.inlineStyle = true) ∧
    (∀ (n : String) (l : ScriptLoad),
      scriptAllowed (examplePanelCsp webviewCspSource n) l = true
        ↔ l = ScriptLoad.noncedScript n) ∧
    (∀ (uri : String) (seed : Nat), (exampleHtml uri seed).data =
      cspDocPre.data
        ++ (renderCsp (examplePanelCsp webviewCspSource (getNonce seed))).data
        ++ (cspDocPost ++ styleUriOf uri ++ htmlChunk4 ++ getNonce seed ++ htmlChunk5
              ++ scriptUriOf uri ++ htmlChunk6).data) ∧
    (∀ (uri : String) (seed : Nat), (exampleHtml uri seed).data =
      (chunkA ++ ((getNonce seed).data ++ (htmlChunk3 ++ styleUriOf uri ++ htmlChunk4a).data))
        ++ (scriptOpen.data ++ ((getNonce seed).data
              ++ (htmlChunk5 ++ scriptUriOf uri ++ scriptClose).data))
        ++ htmlTail.data) ∧
    (∀ seed : Nat, countOccsStr (exampleHtml "/ext" seed) "<div id=" = 1) ∧
    (∀ seed : Nat, countOccsStr (exampleHtml "/ext" seed) "<script" = 1) ∧
    (∀ seed : Nat, countOccsStr (exampleHtml "/ext" seed) "<link" = 1) := by
  refine ⟨?_, ?_, ?_, ?_, csp_embed, scriptTag_embed, mount_count_one,
    scriptTag_count_one, link_count_one⟩
  · intro n o
    simp [fallbackAllows, examplePanelCsp]
  · intro n o
    constructor
    · intro h
      simpa [styleAllowed, examplePanelCsp] using h
    · intro h
      simp [styleAllowed, examplePanelCsp, h]
  · intro n
    simp [styleAllowed, examplePanelCsp]
  · intro n l
    cases l <;> simp [scriptAllowed, examplePanelCsp]

/-- C9: distinct render seeds give distinct nonce tokens; successive opens
consume successive seeds and each stored instance embeds the nonce of its
own seed; the rendered document has exactly one script tag, which carries
the nonce of the render; the nonce occurs exactly twice in the whole
document, once in the policy attribute and once in the script tag, as the
two decompositions locate. -/
theorem nonce_fresh_single_script_tag :
    (∀ s1 s2 : Nat, s1 ≠ s2 → getNonce s1 ≠ getNonce s2) ∧
    (∀ (st : HostState) (uri : String), st.currentPanel = none →
      (createOrShow st uri).1.renderSeed = st.renderSeed + 1 ∧
      (createOrShow st uri).1.currentPanel =
        some (runCtor st.nextHandle uri st.renderSeed
          (st.nextHandle + 1) (st.nextHandle + 2)) ∧
      (runCtor st.nextHandle uri st.renderSeed
          (st.nextHandle + 1) (st.nextHandle + 2)).html =
        exampleHtml uri st.renderSeed) ∧
    (∀ seed : Nat, countOccsStr (exampleHtml "/ext" seed) "<script" = 1) ∧
    (∀ seed : Nat, countOccs (exampleHtml "/ext" seed).data (getNonce seed).data = 2) ∧
    (∀ (uri : String) (seed : Nat), (exampleHtml uri seed).data =
      (chunkA ++ ((getNonce seed).data ++ (htmlChunk3 ++ styleUriOf uri ++ htmlChunk4a).data))
        ++ (scriptOpen.data ++ ((getNonce seed).data
              ++ (htmlChunk5 ++ scriptUriOf uri ++ scriptClose).data))
        ++ htmlTail.data) := by
  refine ⟨?_, ?_, scriptTag_count_one, nonce_occurrence_two, scriptTag_embed⟩
  · intro s1 s2 hne he
    exact hne (getNonce_inj he)
  · intro st uri h
    refine ⟨?_, ?_, ?_⟩
    · simp [createOrShow, h]
    · simp [createOrShow, h]
    · rfl

/-- Witness for C9 at concrete seeds and a concrete empty state. -/
theorem nonce_fresh_single_script_tag_witness :
    getNonce 0 ≠ getNonce 1 ∧
    (createOrShow hostStateEmpty "/ext").1.renderSeed = 1 ∧
    countOccsStr (exampleHtml "/ext" 0) "<script" = 1 :=
  ⟨nonce_fresh_single_script_tag.1 0 1 (by decide),
   (nonce_fresh_single_script_tag.2.1 hostStateEmpty "/ext" rfl).1,
   nonce_fresh_single_script_tag.2.2.1 0⟩
